import Mathlib

/-!
Verification of the document-intake and risk-scoring core of the
Contract Risk Analyzer (src/app.py): the `extract_text` extractor and the
`rule_based_risk` scorer, shallowly embedded in Lean.  External parsing
libraries (pdfplumber page extraction, python-docx paragraph collection)
are modelled by their observable results: a list of per-page extraction
results and a list of paragraph texts.  Raw file bytes are a list of
byte values, decoded by a strict UTF-8 decoder modelling Python's
`bytes.decode("utf-8")`.
-/

namespace ContractRiskAnalyzer

/-- ASCII lower-casing of one character, modelling Python's `str.lower`
on the ASCII range (all trigger keywords are ASCII). -/
def lowerChar (c : Char) : Char :=
  if 65 ≤ c.toNat ∧ c.toNat ≤ 90 then Char.ofNat (c.toNat + 32) else c

/-- Lower-casing of a string (`text.lower()` in src/app.py line 90). -/
def lowerStr (s : String) : String := ⟨s.data.map lowerChar⟩

/-- Does the character list `nd` occur as a contiguous run somewhere in
the second list?  Helper for Python's substring containment test. -/
def containsSub (nd : List Char) : List Char → Bool
  | [] => List.isPrefixOf nd []
  | c :: rest => List.isPrefixOf nd (c :: rest) || containsSub nd rest

/-- Python's substring containment test `needle in haystack`. -/
def strContains (haystack needle : String) : Bool :=
  containsSub needle.data haystack.data

/-- The rule-based risk scorer, from `rule_based_risk` in src/app.py
lines 87-107: lower-case the text, append one finding per fired trigger
in checklist order, then derive the severity from the finding count. -/
def rule_based_risk (text : String) : List String × String :=
  let t := lowerStr text
  let risks0 : List String := []
  let risks1 :=
    if strContains t "terminate" then
      risks0 ++ ["Unilateral termination clause"]
    else risks0
  let risks2 :=
    if strContains t "indemnify" || strContains t "indemnity" then
      risks1 ++ ["Unlimited indemnity clause"]
    else risks1
  let risks3 :=
    if strContains t "jurisdiction" then
      risks2 ++ ["Foreign jurisdiction clause"]
    else risks2
  let level :=
    if risks3.length ≥ 2 then "High"
    else if risks3.length = 1 then "Medium"
    else "Low"
  (risks3, level)

/-- Extraction failures named by the spec (section 7). -/
inductive ExtractError where
  | DecodeError
  | UnsupportedFormatError
deriving DecidableEq, Repr

/-- An uploaded file as `extract_text` observes it: its name, the
per-page text-extraction results the pdf library would produce
(`None` or a string per page), the paragraph texts the docx library
would produce, and the raw bytes `file.read()` would return. -/
structure UploadedFile where
  name : String
  pages : List (Option String)
  paragraphs : List String
  bytes : List Nat

/-- Python's `str.endswith` as suffix containment on the character list. -/
def pyEndsWith (s suf : String) : Bool := List.isSuffixOf suf.data s.data

/-- The pdf branch of `extract_text` (src/app.py lines 67-76): starting
from the empty string, append each page's extracted text plus a newline
whenever that text is truthy (present and nonempty). -/
def pdfConcat (pages : List (Option String)) : String :=
  pages.foldl
    (fun text p =>
      match p with
      | some s => if s = "" then text else text ++ s ++ "\n"
      | none => text) ""

/-- Python's `sep.join(items)`: items interleaved with the separator. -/
def pyJoin (sep : String) : List String → String
  | [] => ""
  | [x] => x
  | x :: y :: rest => x ++ sep ++ pyJoin sep (y :: rest)

/-- Is `b` a UTF-8 continuation byte (10xxxxxx)? -/
def contByte (b : Nat) : Bool := decide (0x80 ≤ b) && decide (b ≤ 0xBF)

/-- Payload bits of a continuation byte. -/
def contVal (b : Nat) : Nat := b - 0x80

/-- Strict UTF-8 decoding of a byte list into a character list,
modelling Python's `bytes.decode("utf-8")`: rejects stray continuation
bytes, truncated sequences, overlong encodings, surrogate code points
and code points above U+10FFFF. -/
def utf8DecodeChars : List Nat → Option (List Char)
  | [] => some []
  | b :: rest =>
    if b ≤ 0x7F then
      (utf8DecodeChars rest).map (fun cs => Char.ofNat b :: cs)
    else if b ≤ 0xC1 then none
    else if b ≤ 0xDF then
      match rest with
      | b1 :: rest2 =>
        if contByte b1 then
          (utf8DecodeChars rest2).map
            (fun cs => Char.ofNat ((b - 0xC0) * 0x40 + contVal b1) :: cs)
        else none
      | [] => none
    else if b ≤ 0xEF then
      match rest with
      | b1 :: b2 :: rest3 =>
        if contByte b1 && contByte b2 then
          let c := (b - 0xE0) * 0x1000 + contVal b1 * 0x40 + contVal b2
          if 0x800 ≤ c ∧ ¬(0xD800 ≤ c ∧ c ≤ 0xDFFF) then
            (utf8DecodeChars rest3).map (fun cs => Char.ofNat c :: cs)
          else none
        else none
      | _ => none
    else if b ≤ 0xF4 then
      match rest with
      | b1 :: b2 :: b3 :: rest4 =>
        if contByte b1 && contByte b2 && contByte b3 then
          let c := (b - 0xF0) * 0x40000 + contVal b1 * 0x1000 +
            contVal b2 * 0x40 + contVal b3
          if 0x10000 ≤ c ∧ c ≤ 0x10FFFF then
            (utf8DecodeChars rest4).map (fun cs => Char.ofNat c :: cs)
          else none
        else none
      | _ => none
    else none

/-- UTF-8 decoding of a byte list into a string. -/
def utf8Decode (bs : List Nat) : Option String :=
  (utf8DecodeChars bs).map String.mk

/-- The extractor, from `extract_text` in src/app.py lines 65-83:
dispatch on the file-name suffix; pdf and docx go to their library
paths, everything else is decoded from the raw bytes as UTF-8. -/
def extract_text (file : UploadedFile) : Except ExtractError String :=
  if pyEndsWith file.name ".pdf" then
    Except.ok (pdfConcat file.pages)
  else if pyEndsWith file.name ".docx" then
    Except.ok (pyJoin "\n" file.paragraphs)
  else
    match utf8Decode file.bytes with
    | some s => Except.ok s
    | none => Except.error ExtractError.DecodeError

/-! Spec-side definitions, written from the spec's words, to be compared
with the code-side definitions above. -/

/-- Severity as the spec describes it: a function of the finding count
alone, 0 findings Low, exactly 1 Medium, 2 or more High. -/
def level_of_count (n : Nat) : String :=
  if n ≥ 2 then "High" else if n = 1 then "Medium" else "Low"

/-- Rank of a severity level under the ordering Low < Medium < High. -/
def sevRank (level : String) : Nat :=
  if level = "High" then 2 else if level = "Medium" then 1 else 0

/-- The fixed checklist of finding labels, in checklist order. -/
def checklist : List String :=
  ["Unilateral termination clause",
   "Unlimited indemnity clause",
   "Foreign jurisdiction clause"]

/-- The spec's description of pdf output: the concatenation, in page
order, of each page's nonempty extracted text followed by one newline;
pages yielding no text contribute nothing. -/
def pdfPagesSpec (pages : List (Option String)) : String :=
  String.join (pages.map fun p =>
    match p with
    | some s => if s = "" then "" else s ++ "\n"
    | none => "")

/-- The findings of the scorer, rewritten as one concatenation of three
independent one-shot triggers over the lowered text. -/
def trigRisks (t : String) : List String :=
  (if strContains t "terminate" then ["Unilateral termination clause"] else []) ++
  (if strContains t "indemnify" || strContains t "indemnity" then
    ["Unlimited indemnity clause"] else []) ++
  (if strContains t "jurisdiction" then ["Foreign jurisdiction clause"] else [])

lemma rule_based_risk_fst (text : String) :
    (rule_based_risk text).1 = trigRisks (lowerStr text) := by
  simp only [rule_based_risk, trigRisks]
  split_ifs <;> simp

lemma rule_based_risk_snd (text : String) :
    (rule_based_risk text).2 = level_of_count (rule_based_risk text).1.length := rfl

lemma trigRisks_sublist (t : String) : (trigRisks t).Sublist checklist := by
  unfold trigRisks checklist
  split_ifs <;> decide

lemma trigRisks_nodup (t : String) : (trigRisks t).Nodup := by
  unfold trigRisks
  split_ifs <;> decide

lemma char_toNat_ofNat {n : Nat} (h : n.isValidChar) :
    (Char.ofNat n).toNat = n := by
  simp only [Char.ofNat, dif_pos h, Char.ofNatAux, Char.toNat, UInt32.toNat]
  simp

lemma lowerChar_idem (c : Char) : lowerChar (lowerChar c) = lowerChar c := by
  unfold lowerChar
  by_cases h : 65 ≤ c.toNat ∧ c.toNat ≤ 90
  · rw [if_pos h]
    have hv : (c.toNat + 32).isValidChar := Or.inl (by omega)
    rw [if_neg]
    rw [char_toNat_ofNat hv]
    omega
  · rw [if_neg h, if_neg h]

lemma lowerStr_idem (s : String) : lowerStr (lowerStr s) = lowerStr s := by
  unfold lowerStr
  simp [List.map_map, Function.comp_def, lowerChar_idem]

lemma not_pdf_of_docx {s : String} (h : pyEndsWith s ".docx" = true) :
    pyEndsWith s ".pdf" = false := by
  cases hq : pyEndsWith s ".pdf" with
  | false => rfl
  | true =>
    exfalso
    unfold pyEndsWith at h hq
    rw [List.isSuffixOf_iff_suffix] at h hq
    have h1 : (".docx".data).reverse <+: s.data.reverse := List.reverse_prefix.2 h
    have h2 : (".pdf".data).reverse <+: s.data.reverse := List.reverse_prefix.2 hq
    have e1 : (".docx".data).reverse = ['x', 'c', 'o', 'd', '.'] := rfl
    have e2 : (".pdf".data).reverse = ['f', 'd', 'p', '.'] := rfl
    rw [e1] at h1
    rw [e2] at h2
    rcases List.prefix_or_prefix_of_prefix h1 h2 with hc | hc <;>
      rcases hc with ⟨t, ht⟩ <;> simp only [List.cons_append] at ht <;>
      injection ht with hx _ <;> exact absurd hx (by decide)

lemma join_acc (l : List String) : ∀ acc : String,
    List.foldl (fun r s => r ++ s) acc l =
      acc ++ List.foldl (fun r s => r ++ s) "" l := by
  induction l with
  | nil => intro acc; simp
  | cons x rest ih =>
    intro acc
    rw [List.foldl_cons, List.foldl_cons, ih (acc ++ x), ih ("" ++ x)]
    rw [String.empty_append, String.append_assoc]

lemma pdfPagesSpec_cons (p : Option String) (rest : List (Option String)) :
    pdfPagesSpec (p :: rest) =
      (match p with
       | some s => if s = "" then "" else s ++ "\n"
       | none => "") ++ pdfPagesSpec rest := by
  unfold pdfPagesSpec String.join
  rw [List.map_cons, List.foldl_cons]
  rw [String.empty_append]
  exact join_acc _ _

lemma pdfConcat_aux (pages : List (Option String)) : ∀ acc : String,
    List.foldl
      (fun text p =>
        match p with
        | some s => if s = "" then text else text ++ s ++ "\n"
        | none => text) acc pages = acc ++ pdfPagesSpec pages := by
  induction pages with
  | nil => intro acc; simp [pdfPagesSpec, String.join]
  | cons p rest ih =>
    intro acc
    rw [List.foldl_cons, pdfPagesSpec_cons, ih]
    cases p with
    | none => dsimp only; rw [String.empty_append]
    | some s =>
      dsimp only
      by_cases hs : s = ""
      · rw [if_pos hs, if_pos hs, String.empty_append]
      · rw [if_neg hs, if_neg hs]
        simp only [String.append_assoc]

lemma pdfConcat_eq_spec (pages : List (Option String)) :
    pdfConcat pages = pdfPagesSpec pages := by
  have h := pdfConcat_aux pages ""
  rw [String.empty_append] at h
  exact h

lemma pyJoin_append_cons (sep a y : String) (rest : List String) :
    pyJoin sep ((a ++ sep ++ y) :: rest) = a ++ sep ++ pyJoin sep (y :: rest) := by
  cases rest with
  | nil => rfl
  | cons z r =>
    show (a ++ sep ++ y) ++ sep ++ pyJoin sep (z :: r) =
      a ++ sep ++ (y ++ sep ++ pyJoin sep (z :: r))
    simp only [String.append_assoc]

lemma intercalate_go_eq (sep : String) : ∀ (as : List String) (acc : String),
    String.intercalate.go acc sep as = pyJoin sep (acc :: as) := by
  intro as
  induction as with
  | nil => intro acc; rfl
  | cons y rest ih =>
    intro acc
    rw [show String.intercalate.go acc sep (y :: rest) =
      String.intercalate.go (acc ++ sep ++ y) sep rest from rfl]
    rw [ih (acc ++ sep ++ y)]
    exact pyJoin_append_cons sep acc y rest

lemma pyJoin_eq_intercalate (sep : String) (l : List String) :
    pyJoin sep l = String.intercalate sep l := by
  cases l with
  | nil => rfl
  | cons a as =>
    show pyJoin sep (a :: as) = String.intercalate.go a sep as
    rw [intercalate_go_eq sep as a]

lemma sevRank_level (n : Nat) : sevRank (level_of_count n) = min n 2 := by
  unfold level_of_count
  by_cases h2 : n ≥ 2
  · rw [if_pos h2]
    have e : sevRank "High" = 2 := by decide
    rw [e]; omega
  · rw [if_neg h2]
    by_cases h1 : n = 1
    · rw [if_pos h1]
      have e : sevRank "Medium" = 1 := by decide
      rw [e]; omega
    · rw [if_neg h1]
      have e : sevRank "Low" = 0 := by decide
      rw [e]; omega

/-- Words of a string, split at space characters; used to state that a
trigger can fire without occurring as a standalone word. -/
def wordsOf (s : String) : List String := (s.data.splitOn ' ').map String.mk


/-- C1: for every input text, the severity returned by the risk scorer is
determined solely by the number of findings, with 0 findings Low, exactly
1 Medium, and 2 or more High, and this mapping is monotone with respect
to the ordering Low < Medium < High. -/
theorem severity_determined_by_finding_count (text : String) :
    (rule_based_risk text).2 = level_of_count (rule_based_risk text).1.length ∧
    level_of_count 0 = "Low" ∧ level_of_count 1 = "Medium" ∧
    (∀ n : Nat, 2 ≤ n → level_of_count n = "High") ∧
    (∀ m n : Nat, m ≤ n →
      sevRank (level_of_count m) ≤ sevRank (level_of_count n)) := by
  refine ⟨rule_based_risk_snd text, by decide, by decide, ?_, ?_⟩
  · intro n hn
    unfold level_of_count
    rw [if_pos hn]
  · intro m n hmn
    rw [sevRank_level, sevRank_level]
    omega

theorem severity_determined_by_finding_count_w :
    sevRank (level_of_count 1) ≤ sevRank (level_of_count 3) ∧
    level_of_count 3 = "High" :=
  ⟨(severity_determined_by_finding_count "x").2.2.2.2 1 3 (by omega),
   (severity_determined_by_finding_count "x").2.2.2.1 3 (by omega)⟩

/-- C2: each trigger contributes at most one finding however often its
substring occurs, and the findings list is always in fixed checklist
order; in particular a text containing both "jurisdiction" and
"terminate" yields the termination finding before the jurisdiction one. -/
theorem triggers_one_shot_checklist_order :
    (∀ text : String, (rule_based_risk text).1.Sublist checklist ∧
      ∀ l : String, (rule_based_risk text).1.count l ≤ 1) ∧
    (rule_based_risk
        "Disputes fall under the jurisdiction of X; either party may terminate, terminate, terminate.").1 =
      ["Unilateral termination clause", "Foreign jurisdiction clause"] := by
  constructor
  · intro text
    refine ⟨?_, ?_⟩
    · rw [rule_based_risk_fst]; exact trigRisks_sublist _
    · intro l
      rw [rule_based_risk_fst]
      exact List.nodup_iff_count_le_one.mp (trigRisks_nodup _) l
  · decide

/-- C3: trigger matching is case-insensitive: the scorer returns the same
pair on a text and on its lower-cased form, in particular on
"TERMINATE this agreement" and "terminate this agreement". -/
theorem scorer_case_insensitive :
    (∀ text : String, rule_based_risk text = rule_based_risk (lowerStr text)) ∧
    rule_based_risk "TERMINATE this agreement" =
      rule_based_risk "terminate this agreement" := by
  constructor
  · intro text
    simp only [rule_based_risk, lowerStr_idem]
  · decide



/-- C4: a document whose name matches neither pdf nor docx is decoded from
its raw bytes as UTF-8: the decoded string is returned unchanged, the
extraction fails with DecodeError exactly when the bytes are not valid
UTF-8, and UnsupportedFormatError is never raised on any input. -/
theorem fallback_is_utf8_decode (f : UploadedFile)
    (hpdf : pyEndsWith f.name ".pdf" = false)
    (hdocx : pyEndsWith f.name ".docx" = false) :
    (∀ s : String, utf8Decode f.bytes = some s → extract_text f = Except.ok s) ∧
    (extract_text f = Except.error ExtractError.DecodeError ↔
      utf8Decode f.bytes = none) ∧
    (∀ g : UploadedFile,
      extract_text g ≠ Except.error ExtractError.UnsupportedFormatError) := by
  refine ⟨?_, ?_, ?_⟩
  · intro s hs
    simp [extract_text, hpdf, hdocx, hs]
  · cases hu : utf8Decode f.bytes with
    | some s => simp [extract_text, hpdf, hdocx, hu]
    | none => simp [extract_text, hpdf, hdocx, hu]
  · intro g
    unfold extract_text
    by_cases h1 : pyEndsWith g.name ".pdf" = true
    · simp [h1]
    · by_cases h2 : pyEndsWith g.name ".docx" = true
      · simp [h1, h2]
      · cases hu : utf8Decode g.bytes with
        | some s => simp [h1, h2, hu]
        | none => simp [h1, h2, hu]

theorem fallback_is_utf8_decode_w :
    extract_text ⟨"a.txt", [], [], [104, 105]⟩ = Except.ok "hi" :=
  (fallback_is_utf8_decode ⟨"a.txt", [], [], [104, 105]⟩
    (by decide) (by decide)).1 "hi" (by decide)

/-- C5: for a pdf document, the extracted text is the concatenation, in
page order, of each page's nonempty extracted text followed by one
newline, with empty or absent page texts contributing nothing. -/
theorem pdf_concat_nonempty_pages (f : UploadedFile)
    (h : pyEndsWith f.name ".pdf" = true) :
    extract_text f = Except.ok (pdfPagesSpec f.pages) := by
  simp [extract_text, h, pdfConcat_eq_spec]

theorem pdf_concat_nonempty_pages_w :
    extract_text ⟨"c.pdf", [some "A", none, some "", some "B"], [], []⟩ =
      Except.ok "A\nB\n" := by
  rw [pdf_concat_nonempty_pages ⟨"c.pdf", [some "A", none, some "", some "B"], [], []⟩ (by decide)]
  rfl

/-- C6: for a docx document, the extracted text is the paragraph texts
joined with a single newline between consecutive paragraphs, in document
order, with empty paragraphs contributing an empty line. -/
theorem docx_join_paragraphs (f : UploadedFile)
    (h : pyEndsWith f.name ".docx" = true) :
    extract_text f = Except.ok (String.intercalate "\n" f.paragraphs) := by
  simp [extract_text, not_pdf_of_docx h, h, pyJoin_eq_intercalate]

theorem docx_join_paragraphs_w :
    extract_text ⟨"d.docx", [], ["a", "", "b"], []⟩ = Except.ok "a\n\nb" := by
  rw [docx_join_paragraphs ⟨"d.docx", [], ["a", "", "b"], []⟩ (by decide)]
  rfl

/-- C7: the risk scorer is deterministic: two runs on equal input texts
return equal (findings, severity) pairs. -/
theorem scorer_deterministic (t1 t2 : String) (h : t1 = t2) :
    rule_based_risk t1 = rule_based_risk t2 := by rw [h]

theorem scorer_deterministic_w :
    rule_based_risk "terminate" = rule_based_risk "terminate" :=
  scorer_deterministic "terminate" "terminate" rfl

/-- C8: the risk scorer is total: every text yields a valid severity among
Low, Medium and High, and the empty string yields no findings and Low. -/
theorem scorer_total_empty_low (text : String) :
    ((rule_based_risk text).2 = "Low" ∨ (rule_based_risk text).2 = "Medium" ∨
      (rule_based_risk text).2 = "High") ∧
    rule_based_risk "" = ([], "Low") := by
  constructor
  · rw [rule_based_risk_snd]
    unfold level_of_count
    split_ifs <;>
      first
      | exact Or.inl rfl
      | exact Or.inr (Or.inl rfl)
      | exact Or.inr (Or.inr rfl)
  · decide

/-- C9: the findings list is always a duplicate-free subsequence of the
fixed three-label checklist, so its length is at most 3 and no label
outside the checklist ever appears. -/
theorem findings_nodup_sublist_checklist (text : String) :
    (rule_based_risk text).1.Nodup ∧
    (rule_based_risk text).1.Sublist checklist ∧
    (rule_based_risk text).1.length ≤ 3 := by
  rw [rule_based_risk_fst]
  refine ⟨trigRisks_nodup _, trigRisks_sublist _, ?_⟩
  have h := (trigRisks_sublist (lowerStr text)).length_le
  simpa [checklist] using h

/-- C10: trigger matching is raw substring containment without word
boundaries: the single word "exterminated" is not the word "terminate"
yet contains it as a substring and fires the termination finding. -/
theorem substring_match_no_word_boundary :
    rule_based_risk "exterminated" =
      (["Unilateral termination clause"], "Medium") ∧
    strContains (lowerStr "exterminated") "terminate" = true ∧
    ¬ "terminate" ∈ wordsOf "exterminated" := by decide


end ContractRiskAnalyzer
